import Mathlib

/-!
Verification development for the devstats `pr` command (cmd/pr.go).

The Go source is shallowly embedded: machine `float64` samples are modelled
as exact rationals (`ℚ`), Go `time.Time` values as rational numbers of hours
measured from Go's zero time (year 1), channels as lists, the `errgroup`
cancellation context as an explicit Boolean flag, and fallible calls as
`Except` / explicit reply records.  Remote clients (GitHub search and
pull-request detail) are parameters of the model, as they are injected
collaborators of the pipeline.
-/

namespace Devstats

/-- A search-result item, modelling the fields of `github.Issue` that
`pullRequests` reads: `GetNumber()` and `IsPullRequest()` (the latter is
`PullRequestLinks != nil` in go-github, a plain flag on the match). -/
structure Issue where
  number : Nat
  isPR : Bool
deriving DecidableEq, Repr

/-- The detail record for one pull request, modelling the fields of
`github.PullRequest` read by `calculateStats`: `GetCreatedAt`, `GetMergedAt`
(absent when the PR is unmerged; the go-github getter then yields the zero
`Timestamp`), `GetCommits`, `GetComments`, `GetAdditions`, `GetDeletions`.
Timestamps are rational hours since Go's zero time, so `.Sub(..).Hours()`
becomes subtraction. -/
structure PullRequest where
  number : Nat
  createdAt : ℚ
  mergedAt : Option ℚ
  commits : Int
  comments : Int
  additions : Int
  deletions : Int
deriving DecidableEq, Repr

/-- Reply of one `gc.PullRequests.Get` call, modelling the triple
`(pr, resp, err)` the worker inspects in pr.go lines 213–235: `err` is
whether the transport-level error was non-nil, `status` is
`resp.StatusCode`, `body` the response body read on the non-200 path, and
`pr` the detail record on success.  The body is an in-memory string, so the
`resp.Body.Close()` step cannot fail in the model. -/
structure FetchReply where
  err : Bool
  status : Nat
  body : String
  pr : PullRequest
deriving DecidableEq, Repr

/-- Errors the pipeline can return, mirroring pr.go: `repoFmt` is
`errRepoFmt`, `searchFail` a search-pagination failure, `prGet` the fatal
`fmt.Errorf("PR GET (%d): [%d] - %s", status, number, body)` of a non-200
detail response, `canceled` the `ctx.Err()` of the cancelled errgroup
context. -/
inductive PipelineError where
  | repoFmt
  | searchFail (msg : String)
  | prGet (status : Nat) (number : Nat) (body : String)
  | canceled
deriving DecidableEq, Repr

/-- A remote call issued by the pipeline: a search request (with its
per-page size and page number) or a pull-request detail request. -/
inductive Call where
  | search (perPage : Nat) (page : Nat)
  | fetchPR (number : Nat)
deriving DecidableEq, Repr

/-- Page size set in `github.SearchOptions{ListOptions: github.ListOptions{PerPage: 100}}`. -/
def perPage : Nat := 100

/-- Number of enrichment workers, the constant `nWorkers = 4` of pr.go. -/
def nWorkers : Nat := 4

/-- Capacity of the two channels, the constant `workerChanSize = 1024` of pr.go. -/
def workerChanSize : Nat := 1024

/-- Required token count of the repository identifier, the constant
`ownerRepoTokenLen = 2` of pr.go. -/
def ownerRepoTokenLen : Nat := 2

/-- Splits a character list at every occurrence of `sep`, keeping empty
segments, the recursive core of Go's `strings.Split`. -/
def splitChars (sep : Char) : List Char → List (List Char)
  | [] => [[]]
  | c :: cs =>
    let r := splitChars sep cs
    if c = sep then [] :: r
    else
      match r with
      | [] => [[c]]
      | t :: ts => (c :: t) :: ts

/-- Models Go's `strings.Split(s, sep)` for a one-character separator, as
used by `pullRequests` with separator `"/"`: all segments are kept,
including empty ones, so `"a/"` yields `["a", ""]` and `""` yields `[""]`. -/
def goSplit (s : String) (sep : Char) : List String :=
  (splitChars sep s.toList).map (fun cs => String.mk cs)

/-- Builds the search query of `searchByAuthor` (pr.go lines 320–333): the
fixed qualifiers, the repository clause, the `created:>` clause only when
the from-date string is non-empty (the code reads the global
`prOpts.FromDate`, here an explicit parameter), then the author clause. -/
def searchByAuthor (author : String) (repo : String) (fromDate : String) : String :=
  let q := "is:pull-request is:closed is:merged"
  let q := q ++ (" repo:" ++ repo)
  let q := if fromDate.length ≠ 0 then q ++ (" created:>" ++ fromDate) else q
  q ++ (" author:" ++ author)

/-- A search page as the producer sees it: the issues of `sr.Issues` and
the continuation token `resp.NextPage` (0 when the response carries none). -/
structure SearchPage where
  items : List Issue
  nextPage : Nat
deriving DecidableEq, Repr

/-- The producer loop of `pullRequests` (pr.go lines 173–195): starting
from page 0 it calls the search client, emits every item of the returned
page in order, stops when `resp.NextPage == 0`, and otherwise continues at
`resp.NextPage`.  A search error ends production with that error.  The
client is a function of the requested `(perPage, page)` pair; the loop
always passes the constant `perPage`.  Recursion is fuelled: `none` means
the fuel ran out before the loop terminated.  The second component is the
trace of remote search calls issued. -/
def searchLoop (client : Nat → Nat → Except PipelineError SearchPage) :
    Nat → Nat → Option (Except PipelineError (List Issue)) × List Call
  | 0, _ => (none, [])
  | fuel + 1, page =>
    match client perPage page with
    | .error e => (some (.error e), [.search perPage page])
    | .ok sp =>
      if sp.nextPage = 0 then (some (.ok sp.items), [.search perPage page])
      else
        ((searchLoop client fuel sp.nextPage).1.map (Except.map (sp.items ++ ·)),
          .search perPage page :: (searchLoop client fuel sp.nextPage).2)

/-- A mocked paginated search client serving a fixed list of pages: a
request for page `p` returns the `p`-th page, with `nextPage = p + 1` while
further pages exist and `0` on the last page (requests beyond the list get
an empty terminal page). -/
def clientOfPages (pages : List (List Issue)) : Nat → Nat → Except PipelineError SearchPage :=
  fun _ page =>
    if page < pages.length then
      .ok ⟨pages.getD page [], if page + 1 < pages.length then page + 1 else 0⟩
    else .ok ⟨[], 0⟩

/-- Sequential model of the enrichment workers' processing of the issue
queue (pr.go lines 208–242) together with the reduce stage (lines 248–252):
per item, a non-pull-request match is dropped without a fetch; otherwise
the detail fetch is issued — a transport-level error skips the item, a
non-200 status aborts with the fatal `prGet` error, and a success
contributes the detail record.  The first component is the reduced
collection (or the first fatal error), the second the trace of detail
fetch calls issued. -/
def enrichAllTr (fetch : Nat → FetchReply) :
    List Issue → Except PipelineError (List PullRequest) × List Call
  | [] => (.ok [], [])
  | i :: rest =>
    if i.isPR = false then enrichAllTr fetch rest
    else if (fetch i.number).err then
      ((enrichAllTr fetch rest).1, .fetchPR i.number :: (enrichAllTr fetch rest).2)
    else if (fetch i.number).status ≠ 200 then
      (.error (.prGet (fetch i.number).status i.number (fetch i.number).body),
        [.fetchPR i.number])
    else
      (Except.map ((fetch i.number).pr :: ·) (enrichAllTr fetch rest).1,
        .fetchPR i.number :: (enrichAllTr fetch rest).2)

/-- The reduced collection of the enrichment model, without the call trace. -/
def enrichAll (fetch : Nat → FetchReply) (issues : List Issue) :
    Except PipelineError (List PullRequest) :=
  (enrichAllTr fetch issues).1

/-- Selection made by a successful pipeline run: a search match contributes
its detail record exactly when it is a pull request and its detail fetch
came back without transport error and with status 200. -/
def fetchedPR (fetch : Nat → FetchReply) (i : Issue) : Option PullRequest :=
  if i.isPR = true ∧ (fetch i.number).err = false ∧ (fetch i.number).status = 200 then
    some (fetch i.number).pr
  else none

/-- Model of `pullRequests` (pr.go lines 160–253): the repository
identifier must split on `/` into exactly `ownerRepoTokenLen` tokens —
the code checks only the token count, `len(ownerAndRepo) != ownerRepoTokenLen` —
otherwise `errRepoFmt` is returned before any remote call; then the search
producer runs and the enrichment/reduce model processes the emitted
matches.  The second component is the trace of all remote calls issued. -/
def pullRequestsModel (repo : String)
    (client : Nat → Nat → Except PipelineError SearchPage)
    (fetch : Nat → FetchReply) (fuel : Nat) :
    Option (Except PipelineError (List PullRequest)) × List Call :=
  if (goSplit repo '/').length ≠ ownerRepoTokenLen then (some (.error .repoFmt), [])
  else
    match searchLoop client fuel 0 with
    | (none, tr) => (none, tr)
    | (some (.error e), tr) => (some (.error e), tr)
    | (some (.ok issues), tr) =>
      (some (enrichAllTr fetch issues).1, tr ++ (enrichAllTr fetch issues).2)

/-- Close flags of the worker pool's shared countdown (pr.go lines
198–206): the counter starts at the worker count; each worker's deferred
exit handler runs whatever the worker's result was (`rs` lists those
results), decrements the counter, and closes the output channel exactly
when it observes the decremented value 0.  The returned list records, in
exit order, whether that exit performed the close. -/
def runPoolExits (c : Nat) : List (Option PipelineError) → List Bool
  | [] => []
  | _ :: rest => decide (c - 1 = 0) :: runPoolExits (c - 1) rest

/-- The producer's inner emission loop (pr.go lines 184–186): every item of
the fetched page is sent onto the issues queue.  The loop body contains no
cancellation check, so the emission does not depend on the cancellation
flag at all. -/
def emitPageCode (_cancelled : Bool) (page : List Issue) (queue : List Issue) : List Issue :=
  queue ++ page

/-- Modelled from the spec: the producer's page emission as the spec
describes it — the shared cancellation signal is checked at every blocking
queue operation, so a cancelled producer sends nothing further. -/
def emitPageSpecModel (cancelled : Bool) (page : List Issue) (queue : List Issue) : List Issue :=
  if cancelled then queue else queue ++ page

/-- The worker's guarded send onto the output queue (pr.go lines 237–241):
a `select` between `ctx.Done()` and `prs <- pr`.  With the context
cancelled the `ctx.Done()` branch is taken and the worker returns
`ctx.Err()`; otherwise the record is enqueued. -/
def sendPr (cancelled : Bool) (pr : PullRequest) (queue : List PullRequest) :
    Except PipelineError (List PullRequest) :=
  if cancelled then .error .canceled else .ok (queue ++ [pr])

/-- One worker's loop over the remaining queued issues (pr.go lines
208–242) with the context's cancellation state frozen at `cancelled`: the
receive from the issues queue and the branch on `IsPullRequest` perform no
cancellation check, the detail fetch is issued with no check before it, a
transport error skips the item, a non-200 status is fatal, and only the
final send observes the flag (the `select` of `sendPr`).  Returns the
produced records, the worker's result (`none` = nil error), and how many
detail fetch calls were issued. -/
def workerLoopC (cancelled : Bool) (fetch : Nat → FetchReply) :
    List Issue → List PullRequest → Nat → List PullRequest × Option PipelineError × Nat
  | [], out, calls => (out, none, calls)
  | i :: rest, out, calls =>
    if i.isPR = false then workerLoopC cancelled fetch rest out calls
    else if (fetch i.number).err then workerLoopC cancelled fetch rest out (calls + 1)
    else if (fetch i.number).status ≠ 200 then
      (out, some (.prGet (fetch i.number).status i.number (fetch i.number).body), calls + 1)
    else if cancelled then (out, some .canceled, calls + 1)
    else workerLoopC cancelled fetch rest (out ++ [(fetch i.number).pr]) (calls + 1)

/-- Modelled from the spec: the worker loop as the spec describes it — the
cancellation signal is checked at every blocking queue operation and before
every remote call, so a cancelled worker stops at the queue receive and
issues no further detail fetch. -/
def workerLoopSpecModel (cancelled : Bool) (fetch : Nat → FetchReply) :
    List Issue → List PullRequest → Nat → List PullRequest × Option PipelineError × Nat
  | [], out, calls => (out, none, calls)
  | i :: rest, out, calls =>
    if cancelled then (out, some .canceled, calls)
    else if i.isPR = false then workerLoopSpecModel cancelled fetch rest out calls
    else if (fetch i.number).err then workerLoopSpecModel cancelled fetch rest out (calls + 1)
    else if (fetch i.number).status ≠ 200 then
      (out, some (.prGet (fetch i.number).status i.number (fetch i.number).body), calls + 1)
    else workerLoopSpecModel cancelled fetch rest (out ++ [(fetch i.number).pr]) (calls + 1)

/-- Result record of `calcStats`, the `Statistics` struct of pr.go. -/
structure Statistics where
  Mean : ℚ
  Median : ℚ
  MedianAbsoluteDeviation : ℚ
deriving DecidableEq, Repr

/-- Sorted copy of the sample, modelling `sortedCopy` of the
montanaflynn/stats dependency (which sorts a copy with `sort.Float64s`;
any correct sort yields the same list, here insertion sort). -/
def sortedCopy (s : List ℚ) : List ℚ := s.insertionSort (· ≤ ·)

/-- Arithmetic mean, modelling `stats.Mean`: the sum of the sample divided
by its length.  On the empty sample the Go function returns `NaN` plus an
error; `calcStats` guards emptiness, so the junk value 0 is never used. -/
def Mean (s : List ℚ) : ℚ := if s.length = 0 then 0 else s.sum / s.length

/-- Median, modelling `stats.Median`: sort a copy; for even length take the
mean of the two-element slice `c[l/2-1 : l/2+1]`, for odd length the middle
element.  The empty case is junk (guarded by `calcStats`). -/
def Median (s : List ℚ) : ℚ :=
  let c := sortedCopy s
  let l := c.length
  if l = 0 then 0
  else if l % 2 = 0 then Mean ((c.take (l / 2 + 1)).drop (l / 2 - 1))
  else c.getD (l / 2) 0

/-- Median absolute deviation, modelling `stats.MedianAbsoluteDeviation`
(which delegates to the population variant): the median of the absolute
deviations of each point from the sample median. -/
def MedianAbsoluteDeviation (s : List ℚ) : ℚ :=
  if s.length = 0 then 0 else Median (s.map (fun v => |v - Median s|))

/-- The `calcStats` function of pr.go (lines 115–129): the empty sample
yields the zero `Statistics` value with no error; otherwise the mean,
median and median absolute deviation of the sample. -/
def calcStats (s : List ℚ) : Statistics :=
  if s.length = 0 then ⟨0, 0, 0⟩
  else ⟨Mean s, Median s, MedianAbsoluteDeviation s⟩

/-- The `ContributorStats` struct of pr.go. -/
structure ContributorStats where
  Comments : Statistics
  Commits : Statistics
  MergeTime : Statistics
  PRs : Nat
  ChangeSize : Statistics
  Author : String
deriving DecidableEq, Repr

/-- Merge-latency sample of `calculateStats` (pr.go line 263):
`pr.GetMergedAt().Sub(pr.GetCreatedAt().Time).Hours()` — the getter on an
absent merge timestamp yields the zero time, i.e. 0 on the hours scale. -/
def mergeDeltas (prs : List PullRequest) : List ℚ :=
  prs.map fun pr => pr.mergedAt.getD 0 - pr.createdAt

/-- Commit-count sample of `calculateStats` (pr.go line 266). -/
def commitsSample (prs : List PullRequest) : List ℚ :=
  prs.map fun pr => (pr.commits : ℚ)

/-- Comment-count sample of `calculateStats` (pr.go line 267). -/
def commentsSample (prs : List PullRequest) : List ℚ :=
  prs.map fun pr => (pr.comments : ℚ)

/-- Change-size sample of `calculateStats` (pr.go line 265):
`float64(pr.GetAdditions() + pr.GetDeletions())`. -/
def changeSizeSample (prs : List PullRequest) : List ℚ :=
  prs.map fun pr => ((pr.additions + pr.deletions : Int) : ℚ)

/-- The `calculateStats` function of pr.go (lines 256–277): builds the four
samples, one entry per enriched record, and summarises each with
`calcStats`; `PRs` is the size of the enriched set; `Author` is the zero
value, set afterwards by `run`. -/
def calculateStats (prs : List PullRequest) : ContributorStats :=
  { MergeTime := calcStats (mergeDeltas prs)
    Commits := calcStats (commitsSample prs)
    ChangeSize := calcStats (changeSizeSample prs)
    Comments := calcStats (commentsSample prs)
    PRs := prs.length
    Author := "" }

/-- The per-author loop of `run` (pr.go lines 142–151) with the pipeline
abstracted: for each author in order, run the pipeline; on its error return
that error at once; on success append `calculateStats` of the result with
the `Author` field set to that author's login. -/
def runModel (pipeline : String → Except PipelineError (List PullRequest)) :
    List String → Except PipelineError (List ContributorStats)
  | [] => .ok []
  | a :: rest =>
    match pipeline a with
    | .error e => .error e
    | .ok prs =>
      match runModel pipeline rest with
      | .error e => .error e
      | .ok cs => .ok ({ calculateStats prs with Author := a } :: cs)

/-- The authors for which `run` actually invokes the pipeline, in order:
every author up to and including the first whose pipeline fails. -/
def runAttempts (pipeline : String → Except PipelineError (List PullRequest)) :
    List String → List String
  | [] => []
  | a :: rest =>
    match pipeline a with
    | .error _ => [a]
    | .ok _ => a :: runAttempts pipeline rest

/-- The enriched set an author's successful pipeline produced, read back
out of the pipeline function (empty on the never-taken error case). -/
def okPrs (pipeline : String → Except PipelineError (List PullRequest)) (a : String) :
    List PullRequest :=
  ((pipeline a).toOption).getD []

/-- A mocked search client serving a single empty terminal page. -/
def demoClientEmpty : Nat → Nat → Except PipelineError SearchPage :=
  fun _ _ => .ok ⟨[], 0⟩

/-- A fixed pull-request detail record for concrete instances. -/
def demoPR : PullRequest := ⟨1, 1, some 2, 1, 1, 1, 1⟩

/-- A detail client whose every fetch succeeds with status 200. -/
def demoFetchOk : Nat → FetchReply := fun n => ⟨false, 200, "", ⟨n, 1, some 2, 1, 1, 1, 1⟩⟩

/-- A detail client whose every fetch fails with a transport-level error. -/
def demoFetchErr : Nat → FetchReply := fun _ => ⟨true, 0, "", demoPR⟩

/-- A detail client whose every fetch returns a 404 response with a body. -/
def demoFetchBad : Nat → FetchReply := fun _ => ⟨false, 404, "not found", demoPR⟩

/-- A pull-request search match used in concrete instances. -/
def demoIssuePR : Issue := ⟨7, true⟩

theorem runPoolExits_eq :
    ∀ (rs : List (Option PipelineError)), rs ≠ [] →
      runPoolExits rs.length rs = List.replicate (rs.length - 1) false ++ [true] := by
  intro rs
  induction rs with
  | nil =>
    intro h
    exact absurd rfl h
  | cons r rest ih =>
    intro _
    cases hrest : rest with
    | nil => simp [runPoolExits]
    | cons r2 rest2 =>
      have hne : rest.length ≠ 0 := by simp [hrest]
      have hrec := ih (by simp [hrest])
      simp only [List.length_cons, runPoolExits, Nat.add_sub_cancel, decide_eq_false hne,
        hrest] at hrec ⊢
      rw [hrec]
      have hrep : List.replicate (rest2.length + 1) false =
          false :: List.replicate (rest2.length + 1 - 1) false := by
        rw [List.replicate_succ]
        simp
      simp [hrep]

theorem workerLoopC_calls_le (cancelled : Bool) (fetch : Nat → FetchReply) :
    ∀ (items : List Issue) (out : List PullRequest) (calls : Nat),
      calls ≤ (workerLoopC cancelled fetch items out calls).2.2 := by
  intro items
  induction items with
  | nil =>
    intro out calls
    simp [workerLoopC]
  | cons i rest ih =>
    intro out calls
    simp only [workerLoopC]
    split
    · exact ih out calls
    · split
      · exact le_trans (by omega) (ih out (calls + 1))
      · split
        · simp
        · split
          · simp
          · exact le_trans (by omega) (ih _ (calls + 1))

/-- C5: as the code writes it, the guard of `pullRequests` rejects a
repository identifier exactly when it does not split on `/` into exactly
two tokens (empty tokens allowed): when the token count differs from 2 the
result is the configuration error `errRepoFmt` and no remote call is
issued. -/
theorem c5_repo_format_guard (repo : String)
    (client : Nat → Nat → Except PipelineError SearchPage)
    (fetch : Nat → FetchReply) (fuel : Nat)
    (h : (goSplit repo '/').length ≠ ownerRepoTokenLen) :
    pullRequestsModel repo client fetch fuel = (some (.error .repoFmt), []) := by
  simp [pullRequestsModel, h]

/-- Witness for C5: the identifier `"cockroachdb"` (no slash) yields one
token, so the pipeline fails with `errRepoFmt` having issued no call. -/
theorem c5_repo_format_guard_witness :
    (goSplit "cockroachdb" '/').length ≠ ownerRepoTokenLen ∧
    pullRequestsModel "cockroachdb" demoClientEmpty demoFetchOk 1 =
      (some (.error .repoFmt), []) :=
  ⟨by decide, c5_repo_format_guard "cockroachdb" demoClientEmpty demoFetchOk 1 (by decide)⟩

/-- Counterexample for C5 as stated: `"a/"` does not split into two
NON-EMPTY tokens (its second token is empty), yet `pullRequests` does not
return `errRepoFmt` — the token-count guard passes and a search call is
issued. -/
theorem c5_counterexample :
    goSplit "a/" '/' = ["a", ""]
    ∧ pullRequestsModel "a/" demoClientEmpty demoFetchOk 1 =
        (some (.ok []), [.search 100 0]) := by
  constructor
  · decide
  · rfl

/-- C3: the worker pool's countdown closes the output queue exactly once,
and the close is performed by the worker whose exit decrements the shared
counter to zero — the last of the `nWorkers` exits — regardless of whether
the individual workers returned success or error (the deferred handler
runs in both paths). -/
theorem c3_unique_close (rs : List (Option PipelineError)) (h : rs.length = nWorkers) :
    runPoolExits nWorkers rs = List.replicate (nWorkers - 1) false ++ [true]
    ∧ (runPoolExits nWorkers rs).count true = 1
    ∧ (runPoolExits nWorkers rs).getLast? = some true := by
  have hne : rs ≠ [] := by
    intro hnil
    subst hnil
    simp [nWorkers] at h
  have heq := runPoolExits_eq rs hne
  rw [h] at heq
  refine ⟨heq, ?_, ?_⟩ <;> rw [heq] <;> decide

/-- Witness for C3: a pool whose four workers exit with a mix of nil
results and errors still produces exactly one close, on the last exit. -/
theorem c3_unique_close_witness :
    runPoolExits nWorkers [none, some .canceled, none, none] =
      List.replicate (nWorkers - 1) false ++ [true]
    ∧ (runPoolExits nWorkers [none, some .canceled, none, none]).count true = 1
    ∧ (runPoolExits nWorkers [none, some .canceled, none, none]).getLast? = some true :=
  c3_unique_close [none, some .canceled, none, none] (by decide)

/-- Counterexample for C2 as stated: after cancellation a worker whose
queue still holds a pull-request match issues one more remote detail call
(the code checks the context only at the output send), and the producer
still emits the whole current page onto the input queue — whereas the
spec-described loops, which check the signal at every blocking queue
operation and before every remote call, issue no further call and emit
nothing. -/
theorem c2_counterexample :
    (workerLoopC true demoFetchOk [demoIssuePR] [] 0).2.2 = 1
    ∧ (workerLoopSpecModel true demoFetchOk [demoIssuePR] [] 0).2.2 = 0
    ∧ emitPageCode true [demoIssuePR] [] = [demoIssuePR]
    ∧ emitPageSpecModel true [demoIssuePR] [] = [] :=
  ⟨rfl, rfl, rfl, rfl⟩

/-- C2 amended: cancellation is observed only at the worker's output-queue
send (the `select`), which returns `ctx.Err()` once the context is
cancelled; the producer's page emission performs no cancellation check and
still enqueues every item of the current page, and a cancelled worker
still issues the detail fetch for the next pull-request match in its queue
with no check before the call (a context-aware client then fails the fetch
with a transport-level error, which the worker treats as an item skip). -/
theorem c2_amended_cancellation :
    (∀ (pr : PullRequest) (q : List PullRequest), sendPr true pr q = .error .canceled)
    ∧ (∀ (page queue : List Issue), emitPageCode true page queue = queue ++ page)
    ∧ (∀ (fetch : Nat → FetchReply) (n : Nat) (rest : List Issue)
        (out : List PullRequest) (calls : Nat),
        calls + 1 ≤ (workerLoopC true fetch (⟨n, true⟩ :: rest) out calls).2.2)
    ∧ (∀ (fetch : Nat → FetchReply) (n : Nat) (rest : List Issue)
        (out : List PullRequest) (calls : Nat),
        (fetch n).err = true →
        workerLoopC true fetch (⟨n, true⟩ :: rest) out calls =
          workerLoopC true fetch rest out (calls + 1)) := by
  refine ⟨fun pr q => rfl, fun page queue => rfl, ?_, ?_⟩
  · intro fetch n rest out calls
    simp only [workerLoopC]
    split
    · simp_all
    · split
      · exact workerLoopC_calls_le true fetch rest out (calls + 1)
      · split
        · simp
        · simp
  · intro fetch n rest out calls herr
    simp only [workerLoopC]
    simp [herr]

/-- Witness for C2 amended: concrete cancelled worker and producer steps. -/
theorem c2_amended_cancellation_witness :
    sendPr true demoPR [] = .error .canceled
    ∧ emitPageCode true [demoIssuePR] [] = [] ++ [demoIssuePR]
    ∧ 0 + 1 ≤ (workerLoopC true demoFetchErr [⟨7, true⟩] [] 0).2.2
    ∧ workerLoopC true demoFetchErr [⟨7, true⟩] [] 0 = workerLoopC true demoFetchErr [] [] 1 :=
  ⟨c2_amended_cancellation.1 demoPR [],
    c2_amended_cancellation.2.1 [demoIssuePR] [],
    c2_amended_cancellation.2.2.1 demoFetchErr 7 [] [] 0,
    c2_amended_cancellation.2.2.2 demoFetchErr 7 [] [] 0 rfl⟩

/-- C4: for a pull-request match, a transport-level detail-fetch error
skips the item — no output, no error, the batch continues on the rest —
while a response with a non-200 status aborts the pipeline with a fatal
error carrying the status code, the item number and the response body. -/
theorem c4_skip_vs_fatal (fetch : Nat → FetchReply) (i : Issue) (rest : List Issue)
    (hpr : i.isPR = true) :
    ((fetch i.number).err = true → enrichAll fetch (i :: rest) = enrichAll fetch rest)
    ∧ ((fetch i.number).err = false → (fetch i.number).status ≠ 200 →
        enrichAll fetch (i :: rest) =
          .error (.prGet (fetch i.number).status i.number (fetch i.number).body)) := by
  constructor
  · intro herr
    simp [enrichAll, enrichAllTr, hpr, herr]
  · intro herr hstat
    simp [enrichAll, enrichAllTr, hpr, herr, hstat]

/-- Witness for C4: a transport failure on item 7 skips it and processing
continues with the rest of the batch; a 404 response with a body on item 7
aborts with the fatal error carrying status, number and body. -/
theorem c4_skip_vs_fatal_witness :
    enrichAll demoFetchErr (⟨7, true⟩ :: [⟨8, false⟩]) = enrichAll demoFetchErr [⟨8, false⟩]
    ∧ enrichAll demoFetchBad (⟨7, true⟩ :: []) = .error (.prGet 404 7 "not found") :=
  ⟨(c4_skip_vs_fatal demoFetchErr ⟨7, true⟩ [⟨8, false⟩] rfl).1 rfl,
    (c4_skip_vs_fatal demoFetchBad ⟨7, true⟩ [] rfl).2 rfl (by decide)⟩

/-- C10: an enriched record with an absent merge timestamp is neither an
error nor skipped by `calculateStats`: its merge-time entry is the zero
timestamp minus the creation timestamp (negative whenever the creation
time is after year 1), and the record still counts in `PRs` and in all
four samples, whose lengths equal the size of the enriched set. -/
theorem c10_unmerged_counted (prs : List PullRequest) (i : Nat) (h : i < prs.length)
    (hun : prs[i].mergedAt = none) :
    (mergeDeltas prs).length = prs.length
    ∧ (commitsSample prs).length = prs.length
    ∧ (commentsSample prs).length = prs.length
    ∧ (changeSizeSample prs).length = prs.length
    ∧ (calculateStats prs).PRs = prs.length
    ∧ (mergeDeltas prs).getD i 0 = -prs[i].createdAt
    ∧ (0 < prs[i].createdAt → (mergeDeltas prs).getD i 0 < 0) := by
  have hlen : i < (mergeDeltas prs).length := by simpa [mergeDeltas] using h
  have hentry : (mergeDeltas prs).getD i 0 = -prs[i].createdAt := by
    rw [List.getD_eq_getElem _ _ hlen]
    simp [mergeDeltas, hun]
  refine ⟨by simp [mergeDeltas], by simp [commitsSample], by simp [commentsSample],
    by simp [changeSizeSample], rfl, hentry, ?_⟩
  intro hpos
  rw [hentry]
  exact neg_lt_zero.mpr hpos

/-- Witness for C10: one unmerged record created 5 hours after year 1 gives
a merge-time entry of -5 and still counts everywhere. -/
theorem c10_unmerged_counted_witness :
    (mergeDeltas [⟨1, 5, none, 1, 1, 1, 1⟩]).length = 1
    ∧ (calculateStats [⟨1, 5, none, 1, 1, 1, 1⟩]).PRs = 1
    ∧ (mergeDeltas [⟨1, 5, none, 1, 1, 1, 1⟩]).getD 0 0 = -(5 : ℚ)
    ∧ (mergeDeltas [⟨1, 5, none, 1, 1, 1, 1⟩]).getD 0 0 < 0 := by
  have h := c10_unmerged_counted [⟨1, 5, none, 1, 1, 1, 1⟩] 0 (by decide) rfl
  exact ⟨h.1, h.2.2.2.2.1, h.2.2.2.2.2.1, h.2.2.2.2.2.2 (by norm_num)⟩

/-- C8: `run` processes the authors one after another in the requested
order; when every pipeline succeeds it returns exactly one record per
author, in order, with the `Author` field set to that author's login; on
the first author whose pipeline fails it returns that error at once and
attempts none of the remaining authors. -/
theorem runModel_cons (pipeline : String → Except PipelineError (List PullRequest))
    (a : String) (rest : List String) :
    runModel pipeline (a :: rest) =
      match pipeline a with
      | .error e => .error e
      | .ok prs =>
        match runModel pipeline rest with
        | .error e => .error e
        | .ok cs => .ok ({ calculateStats prs with Author := a } :: cs) := rfl

theorem runAttempts_cons (pipeline : String → Except PipelineError (List PullRequest))
    (a : String) (rest : List String) :
    runAttempts pipeline (a :: rest) =
      match pipeline a with
      | .error _ => [a]
      | .ok _ => a :: runAttempts pipeline rest := rfl

theorem c8_run_sequential (pipeline : String → Except PipelineError (List PullRequest)) :
    (∀ (authors : List String), (∀ a ∈ authors, (pipeline a).isOk = true) →
      runModel pipeline authors =
        .ok (authors.map fun a => { calculateStats (okPrs pipeline a) with Author := a })
      ∧ runAttempts pipeline authors = authors)
    ∧ (∀ (pre post : List String) (b : String) (e : PipelineError),
        (∀ a ∈ pre, (pipeline a).isOk = true) → pipeline b = .error e →
        runModel pipeline (pre ++ b :: post) = .error e
        ∧ runAttempts pipeline (pre ++ b :: post) = pre ++ [b]) := by
  constructor
  · intro authors
    induction authors with
    | nil =>
      intro _
      exact ⟨rfl, rfl⟩
    | cons a rest ih =>
      intro hall
      have ha : (pipeline a).isOk = true := hall a (by simp)
      have hrest := ih (fun x hx => hall x (by simp [hx]))
      cases hpa : pipeline a with
      | error e =>
        rw [hpa] at ha
        simp [Except.isOk, Except.toBool] at ha
      | ok prs =>
        constructor
        · rw [runModel_cons, hpa, hrest.1]
          simp [okPrs, hpa, Except.toOption]
        · rw [runAttempts_cons, hpa, hrest.2]
  · intro pre
    induction pre with
    | nil =>
      intro post b e _ hb
      exact ⟨by simp only [List.nil_append, runModel_cons, hb],
        by simp only [List.nil_append, runAttempts_cons, hb]⟩
    | cons a pre2 ih =>
      intro post b e hall hb
      have ha : (pipeline a).isOk = true := hall a (by simp)
      have hrest := ih post b e (fun x hx => hall x (by simp [hx])) hb
      cases hpa : pipeline a with
      | error e2 =>
        rw [hpa] at ha
        simp [Except.isOk, Except.toBool] at ha
      | ok prs =>
        constructor
        · rw [List.cons_append, runModel_cons, hpa, hrest.1]
        · rw [List.cons_append, runAttempts_cons, hpa, hrest.2, List.cons_append]

/-- A pipeline stub for concrete instances: fails for author `"bob"`,
succeeds with one record otherwise. -/
def demoPipe : String → Except PipelineError (List PullRequest) :=
  fun a => if a = "bob" then .error .canceled else .ok [demoPR]

/-- Witness for C8: one all-success run and one run aborting at `"bob"`
without attempting `"carol"`. -/
theorem c8_run_sequential_witness :
    runModel demoPipe ["alice"] =
      .ok (["alice"].map fun a => { calculateStats (okPrs demoPipe a) with Author := a })
    ∧ runAttempts demoPipe ["alice"] = ["alice"]
    ∧ runModel demoPipe ["alice", "bob", "carol"] = .error .canceled
    ∧ runAttempts demoPipe ["alice", "bob", "carol"] = ["alice", "bob"] := by
  have h1 := (c8_run_sequential demoPipe).1 ["alice"] (by decide)
  have h2 := (c8_run_sequential demoPipe).2 ["alice"] ["carol"] "bob" .canceled
    (by decide) rfl
  exact ⟨h1.1, h1.2, h2.1, h2.2⟩

theorem sortedCopy_sorted (s : List ℚ) : List.Sorted (· ≤ ·) (sortedCopy s) :=
  List.sorted_insertionSort _ s

theorem sortedCopy_perm (s : List ℚ) : (sortedCopy s).Perm s :=
  List.perm_insertionSort _ s

theorem sortedCopy_congr (s t : List ℚ) (h : t.Perm s) : sortedCopy t = sortedCopy s :=
  List.eq_of_perm_of_sorted ((sortedCopy_perm t).trans (h.trans (sortedCopy_perm s).symm))
    (sortedCopy_sorted t) (sortedCopy_sorted s)

/-- C9: the median computed by `calcStats` is invariant under permutation
of the sample — it depends only on the sorted copy, which two permuted
samples share.  In the embedding `calcStats` is a pure function of its
argument, reflecting that the Go code sorts an internal copy and never
mutates the caller's slice. -/
theorem c9_median_perm_invariant (s t : List ℚ) (h : t.Perm s) :
    (calcStats t).Median = (calcStats s).Median := by
  have hsc := sortedCopy_congr s t h
  have hlen := h.length_eq
  by_cases hz : s.length = 0
  · have htz : t.length = 0 := by omega
    simp [calcStats, hz, htz]
  · have htz : ¬ t.length = 0 := by omega
    simp only [calcStats, if_neg hz, if_neg htz]
    show Median t = Median s
    simp only [Median, hsc]

/-- Witness for C9: the samples `[2,1]` and `[1,2]` have the same median,
which evaluates to `3/2`. -/
theorem c9_median_perm_invariant_witness :
    (calcStats [2, 1]).Median = (calcStats [1, 2]).Median
    ∧ (calcStats [(1 : ℚ), 2]).Median = 3 / 2 := by
  constructor
  · exact c9_median_perm_invariant [1, 2] [2, 1] (List.Perm.swap 1 2 [])
  · norm_num [calcStats, Median, Mean, sortedCopy, List.insertionSort, List.orderedInsert]

theorem middle_slice (c : List ℚ) (h : 2 ≤ c.length) :
    (c.take (c.length / 2 + 1)).drop (c.length / 2 - 1) =
      [c.getD (c.length / 2 - 1) 0, c.getD (c.length / 2) 0] := by
  have h1 : c.length / 2 - 1 < c.length := by omega
  have h2 : c.length / 2 < c.length := by omega
  rw [List.drop_take]
  have harith : c.length / 2 + 1 - (c.length / 2 - 1) = 2 := by omega
  rw [harith, List.drop_eq_getElem_cons h1]
  have hsucc : c.length / 2 - 1 + 1 = c.length / 2 := by omega
  rw [hsucc, List.drop_eq_getElem_cons h2]
  rw [List.getD_eq_getElem _ _ h1, List.getD_eq_getElem _ _ h2]
  rfl

/-- C6: `calcStats` of the empty sample returns the zero statistics record
without error; on a non-empty sample it returns the arithmetic mean, the
median of the sorted copy of the sample (the average of the two middle
values when the length is even, the middle value when odd), and the median
of the absolute deviations of each point from the sample median — with no
clamping or outlier removal: the sorted copy is a permutation of the full
sample. -/
theorem c6_calcStats_spec (s : List ℚ) (hne : s ≠ []) :
    calcStats [] = ⟨0, 0, 0⟩
    ∧ (calcStats s).Mean = s.sum / s.length
    ∧ List.Sorted (· ≤ ·) (sortedCopy s)
    ∧ (sortedCopy s).Perm s
    ∧ ((sortedCopy s).length % 2 = 0 →
        (calcStats s).Median =
          ((sortedCopy s).getD ((sortedCopy s).length / 2 - 1) 0 +
            (sortedCopy s).getD ((sortedCopy s).length / 2) 0) / 2)
    ∧ ((sortedCopy s).length % 2 = 1 →
        (calcStats s).Median = (sortedCopy s).getD ((sortedCopy s).length / 2) 0)
    ∧ (calcStats s).MedianAbsoluteDeviation =
        Median (s.map fun v => |v - Median s|) := by
  have hlen0 : ¬ s.length = 0 := by
    simpa [List.length_eq_zero] using hne
  have hclen : (sortedCopy s).length = s.length := (sortedCopy_perm s).length_eq
  refine ⟨rfl, ?_, sortedCopy_sorted s, sortedCopy_perm s, ?_, ?_, ?_⟩
  · simp [calcStats, hlen0, Mean]
  · intro heven
    have h2 : 2 ≤ (sortedCopy s).length := by omega
    simp only [calcStats, if_neg hlen0]
    show Median s = _
    simp only [Median]
    rw [if_neg (by omega : ¬ (sortedCopy s).length = 0), if_pos heven,
      middle_slice (sortedCopy s) h2]
    simp [Mean]
  · intro hodd
    simp only [calcStats, if_neg hlen0]
    show Median s = _
    simp only [Median]
    rw [if_neg (by omega : ¬ (sortedCopy s).length = 0),
      if_neg (by omega : ¬ (sortedCopy s).length % 2 = 0)]
  · simp only [calcStats, if_neg hlen0]
    show MedianAbsoluteDeviation s = _
    simp [MedianAbsoluteDeviation, hlen0]

/-- Witness for C6: on the sample `[1,3,2,4]` the mean is `5/2`, the
median is the average `5/2` of the two middle values of the sorted copy
`[1,2,3,4]`, and the median absolute deviation is `1`. -/
theorem c6_calcStats_spec_witness :
    calcStats [] = ⟨0, 0, 0⟩
    ∧ (calcStats [(1 : ℚ), 3, 2, 4]).Mean = 5 / 2
    ∧ (calcStats [(1 : ℚ), 3, 2, 4]).Median = 5 / 2
    ∧ (calcStats [(1 : ℚ), 3, 2, 4]).MedianAbsoluteDeviation = 1 := by
  have h := c6_calcStats_spec [(1 : ℚ), 3, 2, 4] (by decide)
  refine ⟨h.1, ?_, ?_, ?_⟩
  · rw [h.2.1]
    norm_num
  · rw [h.2.2.2.2.1 (by decide)]
    norm_num [sortedCopy, List.insertionSort, List.orderedInsert]
  · rw [h.2.2.2.2.2.2]
    norm_num [Median, Mean, sortedCopy, List.insertionSort, List.orderedInsert,
      abs, sup_eq_max, max_def]

theorem enrichAll_ok_eq (fetch : Nat → FetchReply) :
    ∀ (issues : List Issue) (l : List PullRequest),
      enrichAll fetch issues = .ok l → l = issues.filterMap (fetchedPR fetch) := by
  intro issues
  induction issues with
  | nil =>
    intro l h
    simp only [enrichAll, enrichAllTr] at h
    cases h
    rfl
  | cons i rest ih =>
    intro l h
    by_cases hpr : i.isPR = false
    · have hf : fetchedPR fetch i = none := by simp [fetchedPR, hpr]
      rw [List.filterMap_cons, hf]
      exact ih l (by simpa [enrichAll, enrichAllTr, hpr] using h)
    · have hpr' : i.isPR = true := by simpa using hpr
      by_cases herr : (fetch i.number).err
      · have hf : fetchedPR fetch i = none := by simp [fetchedPR, herr]
        rw [List.filterMap_cons, hf]
        exact ih l (by simpa [enrichAll, enrichAllTr, hpr, herr] using h)
      · by_cases hst : (fetch i.number).status = 200
        · have hf : fetchedPR fetch i = some (fetch i.number).pr := by
            simp [fetchedPR, hpr', herr, hst]
          rw [List.filterMap_cons, hf]
          have h' : Except.map ((fetch i.number).pr :: ·) (enrichAllTr fetch rest).1 =
              Except.ok l := by
            simpa [enrichAll, enrichAllTr, hpr, herr, hst] using h
          cases hrec : (enrichAllTr fetch rest).1 with
          | error e =>
            rw [hrec] at h'
            simp [Except.map] at h'
          | ok l2 =>
            rw [hrec] at h'
            simp only [Except.map, Except.ok.injEq] at h'
            rw [← h', ih l2 hrec]
        · exfalso
          simp [enrichAll, enrichAllTr, hpr, herr, hst] at h

/-- C1: a run of the pipeline that completes without error reduces exactly
the search matches that are pull requests and whose detail fetch succeeded
— each exactly once, in order; non-pull-request matches and matches whose
fetch returned a transport-level error are absent.  The second part ties
this to the full `pullRequests` model: with a valid repository identifier
and a search stage that emitted `issues`, the pipeline's result is
precisely that filtered collection with a nil error. -/
theorem c1_reduce_exact (fetch : Nat → FetchReply) (issues : List Issue)
    (l : List PullRequest) (h : enrichAll fetch issues = .ok l) :
    l = issues.filterMap (fetchedPR fetch)
    ∧ ∀ (repo : String) (client : Nat → Nat → Except PipelineError SearchPage)
        (fuel : Nat) (tr : List Call),
        (goSplit repo '/').length = ownerRepoTokenLen →
        searchLoop client fuel 0 = (some (.ok issues), tr) →
        (pullRequestsModel repo client fetch fuel).1 =
          some (.ok (issues.filterMap (fetchedPR fetch))) := by
  have h1 := enrichAll_ok_eq fetch issues l h
  refine ⟨h1, ?_⟩
  intro repo client fuel tr hrepo hsearch
  have he : (enrichAllTr fetch issues).1 = Except.ok l := h
  simp only [pullRequestsModel,
    if_neg (by simp [hrepo] : ¬ (goSplit repo '/').length ≠ ownerRepoTokenLen), hsearch]
  simp [he, h1]

/-- The 50 search matches of the C1 instance, all pull requests. -/
def issues50 : List Issue := (List.range 50).map fun n => ⟨n, true⟩

/-- A detail client failing with a transport-level error on the 5 numbers
divisible by 10 and succeeding with status 200 on the other 45. -/
def fetch50 : Nat → FetchReply := fun n =>
  if n % 10 = 0 then ⟨true, 0, "", ⟨n, 1, some 2, 1, 1, 1, 1⟩⟩
  else ⟨false, 200, "", ⟨n, 1, some 2, 1, 1, 1, 1⟩⟩

/-- Witness for C1: 50 matches with 5 failed detail fetches reduce to
exactly the 45 successfully fetched records and a nil error. -/
theorem c1_reduce_exact_witness :
    enrichAll fetch50 issues50 = .ok (issues50.filterMap (fetchedPR fetch50))
    ∧ (issues50.filterMap (fetchedPR fetch50)).length = 45 := by
  constructor
  · have hOk : (enrichAll fetch50 issues50).isOk = true := by decide
    cases hcase : enrichAll fetch50 issues50 with
    | error e =>
      rw [hcase] at hOk
      simp [Except.isOk, Except.toBool] at hOk
    | ok l =>
      have hl := (c1_reduce_exact fetch50 issues50 l hcase).1
      rw [hl]
  · decide

theorem string_length_zero_iff (s : String) : s.length = 0 ↔ s = "" := by
  constructor
  · intro h
    cases s with
    | mk data =>
      cases data with
      | nil => rfl
      | cons c cs => simp [String.length] at h
  · intro h
    subst h
    rfl

theorem searchLoop_chain (pages : List (List Issue)) :
    ∀ (fuel r : Nat), r ≤ pages.length → pages.length - r < fuel →
      (searchLoop (clientOfPages pages) fuel r).1 = some (.ok (pages.drop r).flatten) := by
  intro fuel
  induction fuel with
  | zero =>
    intro r h1 h2
    omega
  | succ fuel ih =>
    intro r h1 h2
    by_cases hr : r < pages.length
    · simp only [searchLoop, clientOfPages, if_pos hr]
      by_cases hnext : r + 1 < pages.length
      · rw [if_pos hnext]
        have hne : ¬ (r + 1 = 0) := by omega
        simp only [if_neg hne]
        rw [ih (r + 1) (by omega) (by omega)]
        simp only [Option.map, Except.map]
        rw [List.drop_eq_getElem_cons hr, List.flatten_cons,
          List.getD_eq_getElem _ _ hr]
      · rw [if_neg hnext]
        simp only [if_pos rfl]
        rw [List.drop_eq_getElem_cons hr,
          List.drop_eq_nil_of_le (by omega : pages.length ≤ r + 1), List.flatten_cons,
          List.getD_eq_getElem _ _ hr]
        simp
    · have hre : pages.length ≤ r := by omega
      simp only [searchLoop, clientOfPages, if_neg hr]
      rw [List.drop_eq_nil_of_le hre]
      simp

theorem searchLoop_calls (client : Nat → Nat → Except PipelineError SearchPage) :
    ∀ (fuel page : Nat),
      ∀ c ∈ (searchLoop client fuel page).2, ∃ p, c = Call.search perPage p := by
  intro fuel
  induction fuel with
  | zero =>
    intro page c hc
    simp [searchLoop] at hc
  | succ fuel ih =>
    intro page c hc
    simp only [searchLoop] at hc
    cases hcl : client perPage page with
    | error e =>
      simp only [hcl] at hc
      simp at hc
      exact ⟨page, hc⟩
    | ok sp =>
      simp only [hcl] at hc
      by_cases h0 : sp.nextPage = 0
      · rw [if_pos h0] at hc
        simp at hc
        exact ⟨page, hc⟩
      · rw [if_neg h0] at hc
        simp only [List.mem_cons] at hc
        cases hc with
        | inl h => exact ⟨page, h⟩
        | inr h => exact ih sp.nextPage c h

/-- C7: the search stage issues the documented query (with the `created:>`
clause omitted exactly when the from-date string is empty), requests every
page at the fixed page size of 100, emits every item of every page in page
arrival order, and terminates without error exactly when the final
response carries no next-page token: over a mocked client serving a chain
of pages whose last response has no token, the emitted collection is the
concatenation of all pages, with a nil error. -/
theorem c7_search_stage (author repo fromDate : String)
    (pages : List (List Issue)) (fuel : Nat) (hfuel : pages.length < fuel) :
    searchByAuthor author repo fromDate =
      "is:pull-request is:closed is:merged repo:" ++ repo ++
        (if fromDate = "" then "" else " created:>" ++ fromDate) ++ (" author:" ++ author)
    ∧ perPage = 100
    ∧ (searchLoop (clientOfPages pages) fuel 0).1 = some (.ok pages.flatten)
    ∧ ∀ c ∈ (searchLoop (clientOfPages pages) fuel 0).2, ∃ p, c = Call.search perPage p := by
  refine ⟨?_, rfl, ?_, searchLoop_calls (clientOfPages pages) fuel 0⟩
  · have fuse : ∀ X : String,
        "is:pull-request is:closed is:merged" ++ (" repo:" ++ X) =
          "is:pull-request is:closed is:merged repo:" ++ X := by
      intro X
      rw [← String.append_assoc]
      rfl
    simp only [searchByAuthor]
    by_cases hfd : fromDate = ""
    · rw [if_neg (by simp [string_length_zero_iff, hfd]), if_pos hfd,
        String.append_empty, fuse repo]
    · rw [if_pos (by simp [string_length_zero_iff, hfd]), if_neg hfd, fuse repo]
  · have := searchLoop_chain pages fuel 0 (by omega) (by omega)
    simpa using this

set_option maxRecDepth 4096 in
/-- Witness for C7: a client serving pages of sizes 100, 100 and 7 (the
third carrying no next-page token) makes the search stage emit exactly 207
records with a nil error, and every issued call uses page size 100. -/
theorem c7_search_stage_witness :
    searchByAuthor "alice" "cockroachdb/cockroach" "" =
      "is:pull-request is:closed is:merged repo:" ++ "cockroachdb/cockroach" ++
        (if "" = "" then "" else " created:>" ++ "") ++ (" author:" ++ "alice")
    ∧ (searchLoop
        (clientOfPages [List.replicate 100 ⟨1, true⟩, List.replicate 100 ⟨2, true⟩,
          List.replicate 7 ⟨3, true⟩]) 4 0).1 =
      some (.ok ([List.replicate 100 ⟨1, true⟩, List.replicate 100 ⟨2, true⟩,
          List.replicate 7 (⟨3, true⟩ : Issue)].flatten))
    ∧ ([List.replicate 100 ⟨1, true⟩, List.replicate 100 ⟨2, true⟩,
          List.replicate 7 (⟨3, true⟩ : Issue)].flatten).length = 207 := by
  have h := c7_search_stage "alice" "cockroachdb/cockroach" ""
    [List.replicate 100 ⟨1, true⟩, List.replicate 100 ⟨2, true⟩, List.replicate 7 ⟨3, true⟩]
    4 (by decide)
  exact ⟨h.1, h.2.2.1, by decide⟩

end Devstats
